import Mathlib

/-!
Shallow embedding of the self-correcting code-generation pipeline of the
TDS_Project_2 repository (src/orchestrator.py, src/llm_handler.py,
src/tool_executor.py).

Modelling conventions:
* Python strings are modelled as lists of characters (`Str`); `str.lower`
  and whitespace are modelled on their ASCII fragment, which is all the
  verified properties depend on.
* Python values flowing through the pipeline (dicts, lists, strings,
  numbers, None) are modelled by the inductive `Json`.
* External collaborators (the Gemini model, `json.loads` / `json.dumps`,
  the sandboxed code executor, the concrete web/file/inspector tools) are
  abstracted as environment functions.  A call that may raise an
  exception returns `Except Str α`, with the error case carrying the
  exception text `str(e)`.  The model call is indexed by a call counter,
  so that an environment value describes one arbitrary deterministic
  behaviour of the collaborators; theorems quantify over all
  environments.
* Python integer configuration values are modelled as `Nat` (they are
  parsed from environment variables and used non-negatively).
-/

abbrev Str := List Char

/-- Model of the Python values that flow through the pipeline
(`json.loads` results, tool results, response envelopes). -/
inductive Json where
  | null
  | bool (b : Bool)
  | num (n : Int)
  | str (s : Str)
  | arr (xs : List Json)
  | obj (fs : List (Str × Json))

/-- An uploaded file as received by `process_request`:
`{"filename": ..., "content": ...}`. -/
structure PyFile where
  filename : Str
  content : Str

/-- Python truthiness (`bool(x)`) on modelled values. -/
def pyFalsy : Json → Bool
  | Json.null => true
  | Json.bool b => !b
  | Json.num n => n == 0
  | Json.str s => s.isEmpty
  | Json.arr xs => xs.isEmpty
  | Json.obj fs => fs.isEmpty

/-- ASCII whitespace, the fragment of Python `str.strip` / `\s` that the
verified properties use. -/
def isPySpace (c : Char) : Bool :=
  c = ' ' || c = '\t' || c = '\n' || c = '\r' || c = '\x0b' || c = '\x0c'

/-- `str.strip()` (ASCII fragment). -/
def pyStrip (s : Str) : Str :=
  ((s.dropWhile isPySpace).reverse.dropWhile isPySpace).reverse

/-- `str.lower()` (ASCII fragment). -/
def lowerStr (s : Str) : Str :=
  s.map Char.toLower

/-- If `p` is a leading segment of `cs`, return the remainder. -/
def stripPref : List Char → List Char → Option (List Char)
  | [], cs => some cs
  | _ :: _, [] => none
  | p :: ps, c :: cs => if c = p then stripPref ps cs else none

/-- Python substring containment `needle in hay`. -/
def containsSub (needle : Str) : Str → Bool
  | [] => needle.isEmpty
  | c :: rest => (stripPref needle (c :: rest)).isSome || containsSub needle rest

/-- First-match lookup in an association list (Python `dict` access;
keys of a Python dict are unique, so first match is the match). -/
def lookupStr (k : Str) : List (Str × Json) → Option Json
  | [] => none
  | (k2, v) :: rest => if k2 = k then some v else lookupStr k rest

/-- Python slice `s[-k:]`: for `k = 0` this is the whole string
(`s[-0:] = s[0:]`), else the last `k` characters. -/
def pySliceLast (s : Str) (k : Nat) : Str :=
  if k = 0 then s else s.drop (s.length - k)

/-! ### String literals of the sources (Python `'` written `\x27`) -/

def urlLitS : String := "url"
def fileLitS : String := "file"
def urlInTextLitS : String := "url_in_text"
def textOnlyLitS : String := "text_only"
def httpLitS : String := "http"
def wwwLitS : String := "www."
def jsonArrayLitS : String := "json array"
def httpSchemeLitS : String := "http://"
def httpsSchemeLitS : String := "https://"
def webScraperLitS : String := "web_scraper"
def dataInspectorLitS : String := "data_inspector"
def dataReaderLitS : String := "data_reader"
def urlKeyS : String := "url"
def filenameKeyS : String := "filename"
def contentKeyS : String := "content"
def dataKeyS : String := "data"
def sourceTypeKeyS : String := "source_type"
def unknownLitS : String := "unknown"
def statusKeyS : String := "status"
def messageKeyS : String := "message"
def resultsKeyS : String := "results"
def questionsKeyS : String := "questions"
def errorKeyS : String := "error"
def metadataKeyS : String := "metadata"
def successLitS : String := "success"
def errorLitS : String := "error"
def completedLitS : String := "completed"
def failedAtExecLitS : String := "failed_at_execution"
def execSuccessKeyS : String := "execution_success"
def processingPipelineKeyS : String := "processing_pipeline"
def processingFailedPreS : String := "Processing failed: "
def planKeyS : String := "plan"
def stepsKeyS : String := "steps"
def typeKeyS : String := "type"
def textLitS : String := "text"
def apiKeyMsgS : String := "Gemini API key not configured"
def maxRetriesMsgS : String := "Max retries exceeded for LLM API call"
def urlRequiredMsgS : String := "URL parameter is required for web scraper"
def dataRequiredMsgS : String := "Data parameter is required for data inspector"
def contentRequiredMsgS : String := "Content parameter is required for data reader"
def toolNotFoundPreS : String := "Tool \x27"
def toolNotFoundSufS : String :=
  "\x27 not found. Available tools: [\x27web_scraper\x27, \x27data_inspector\x27, \x27data_reader\x27]"
def maxExceededMsgS : String := "Max correction attempts exceeded"
def invalidCodeMsgS : String := "Invalid code"
def invalidCodeCorrMsgS : String := "Invalid Python code. Return only Python code."
def attrErrMsgS : String := "object has no attribute \x27get\x27"
def findallTypeErrS : String := "expected string or bytes-like object"
def truncMarkerS : String := "\n\n... [TRUNCATED FOR LENGTH] ...\n\n"
def injPreS : String := "\n# Data injection\nimport json\ndata = json.loads(r\x27\x27\x27"
def injMidS : String := "\x27\x27\x27)\nmetadata = json.loads(r\x27\x27\x27"
def injSufS : String := "\x27\x27\x27)\n\n# User code starts here\n"
def nullLitS : String := "null"

def truncMarker : Str := truncMarkerS.toList

/-! ## Model gateway: `LLMHandler` (src/llm_handler.py)

`estimate_tokens` and `truncate_prompt` are pure and translated verbatim.
`call_llm` is modelled by `callLoop`, the retry loop of
`LLMHandler.call_llm`.  The body of the `try` block (model construction,
`generate_content`, response extraction down to `result_text or ""`) is
abstracted as `gen : Nat → Str → Except Str Str`, mapping the attempt
number and the (already truncated) prompt either to the extracted
response text or to the text of a raised exception.  The loop is written
with explicit fuel; `call_llm` passes `fuel = max_retries`, which makes
the fuel-0 case coincide with the `for` loop running out of range
(`raise Exception("Max retries exceeded for LLM API call")`).
`sleepTotal` accumulates the `time.sleep(retry_delay * 2 ** attempt)`
durations; `attemptsMade` counts iterations of the loop body. -/

def estimate_tokens (text : Str) : Nat :=
  text.length / 4

def truncate_prompt (prompt : Str) (max_context_tokens : Nat) : Str :=
  if estimate_tokens prompt ≤ max_context_tokens then prompt
  else
    let target_length := max_context_tokens * 4
    if prompt.length ≤ target_length then prompt
    else
      let keep_start := target_length / 2
      let keep_end := target_length / 2
      prompt.take keep_start ++ (truncMarker ++ pySliceLast prompt keep_end)

structure CallOut where
  result : Except Str Str
  attemptsMade : Nat
  sleepTotal : Nat

structure LLMConfig where
  api_key : Option Str
  max_retries : Nat
  retry_delay : Nat

def callLoop (gen : Nat → Except Str Str) (max_retries retry_delay : Nat) :
    Nat → Nat → CallOut
  | 0, attempt => ⟨Except.error maxRetriesMsgS.toList, attempt, 0⟩
  | fuel + 1, attempt =>
    if attempt < max_retries then
      match gen attempt with
      | Except.ok t => ⟨Except.ok (pyStrip t), attempt + 1, 0⟩
      | Except.error e =>
        if attempt < max_retries - 1 then
          let rest := callLoop gen max_retries retry_delay fuel (attempt + 1)
          ⟨rest.result, rest.attemptsMade, retry_delay * 2 ^ attempt + rest.sleepTotal⟩
        else ⟨Except.error e, attempt + 1, 0⟩
    else ⟨Except.error maxRetriesMsgS.toList, attempt, 0⟩

def call_llm (cfg : LLMConfig) (gen : Nat → Str → Except Str Str) (prompt : Str) : CallOut :=
  match cfg.api_key with
  | none => ⟨Except.error apiKeyMsgS.toList, 0, 0⟩
  | some k =>
    if k.isEmpty then ⟨Except.error apiKeyMsgS.toList, 0, 0⟩
    else
      let prompt_to_send := truncate_prompt prompt 3000
      callLoop (fun i => gen i prompt_to_send) cfg.max_retries cfg.retry_delay
        cfg.max_retries 0

/-! ## Tool dispatcher: `ToolExecutor` (src/tool_executor.py)

The registry is the literal dict
`{'web_scraper': ..., 'data_inspector': ..., 'data_reader': self}`.
The bodies of the three concrete tools (`web_scraper.scrape_url`,
`data_inspector.inspect_data`, `_process_file_content`) are abstracted as
environment functions; the dispatcher's own name check and required
parameter checks are translated verbatim.  `parameters.get(k)` returns
Python `None` when the key is absent, modelled by defaulting to
`Json.null`.  The `try`/`except` in `execute_tool` logs and re-raises,
hence is the identity on the propagated error. -/

structure ToolEnv where
  scrape_url : Json → Except Str Json
  inspect_data : Json → Json → Except Str Json
  process_file : Json → Json → Except Str Json

def execute_web_scraper (env : ToolEnv) (parameters : List (Str × Json)) :
    Except Str Json :=
  let url := (lookupStr urlKeyS.toList parameters).getD Json.null
  if pyFalsy url then Except.error urlRequiredMsgS.toList
  else env.scrape_url url

def execute_data_inspector (env : ToolEnv) (parameters : List (Str × Json)) :
    Except Str Json :=
  let data := (lookupStr dataKeyS.toList parameters).getD Json.null
  let source_type := (lookupStr sourceTypeKeyS.toList parameters).getD (Json.str unknownLitS.toList)
  match data with
  | Json.null => Except.error dataRequiredMsgS.toList
  | d => env.inspect_data d source_type

def execute_data_reader (env : ToolEnv) (parameters : List (Str × Json)) :
    Except Str Json :=
  let filename := (lookupStr filenameKeyS.toList parameters).getD (Json.str [])
  let content := (lookupStr contentKeyS.toList parameters).getD Json.null
  match content with
  | Json.null => Except.error contentRequiredMsgS.toList
  | c => env.process_file filename c

def toolNotFoundMsg (tool_name : Str) : Str :=
  toolNotFoundPreS.toList ++ tool_name ++ toolNotFoundSufS.toList

def execute_tool (env : ToolEnv) (tool_name : Str) (parameters : List (Str × Json)) :
    Except Str Json :=
  if tool_name ≠ webScraperLitS.toList ∧ tool_name ≠ dataInspectorLitS.toList ∧
      tool_name ≠ dataReaderLitS.toList then
    Except.error (toolNotFoundMsg tool_name)
  else if tool_name = webScraperLitS.toList then execute_web_scraper env parameters
  else if tool_name = dataInspectorLitS.toList then execute_data_inspector env parameters
  else execute_data_reader env parameters

/-! ## Pipeline controller: `Orchestrator` (src/orchestrator.py)

Environment of collaborators seen by the orchestrator:
* `llm i` is the outcome of the `i`-th `LLMHandler.call_llm` call of the
  request (call 0: task breakdown, call 1: code generation, calls 2...:
  corrections).  Prompt construction (`_load_prompt_template` plus
  `Template.safe_substitute`) only shapes the prompt text, which the
  verified properties never constrain, so the response is indexed by the
  call number; quantifying over `llm` covers every deterministic
  collaborator behaviour.
* `jsonParse` is `json.loads` (`none` models a raised
  `json.JSONDecodeError`), `dumps` is `json.dumps (default=str)`.
* `prepare_code`, `validate_code` (source name
  `validate_code_syntax`, renamed here) and `execute_code` are the three
  operations of the `CodeExecutor` collaborator; `Except.error e` models
  an exception with text `str(e)`.  An `Except.ok` result of
  `execute_code` models a well-formed result dict holding the keys
  `success`, `output`, `error`.
* `max_correction_attempts` is the configuration field set in
  `Orchestrator.__init__` (value 3 there). -/

structure SynCheck where
  valid : Option Bool
  error : Option Str

structure ExecResult where
  success : Bool
  output : Str
  error : Str

structure OrchEnv where
  llm : Nat → Except Str Str
  jsonParse : Str → Option Json
  dumps : Json → Str
  prepare_code : Str → Except Str Str
  validate_code : Str → Except Str SynCheck
  execute_code : Str → Except Str ExecResult
  tools : ToolEnv
  max_correction_attempts : Nat

/-- `Orchestrator._correct_code`: builds the `3_code_correction` prompt
from the faulty code and the error text and makes one model call.  Only
the model call is observable here (see `OrchEnv.llm`). -/
def correct_code (env : OrchEnv) (_faulty_code _error_message : Str) (ctr : Nat) :
    Except Str Str :=
  env.llm ctr

/-- Observable outcome of `_execute_with_correction`: the returned value
(or the propagated exception), the final value of `attempts`, the next
model-call counter, the number of `execute_code` invocations and the
number of `_correct_code` invocations. -/
structure LoopOut where
  result : Except Str ExecResult
  attempts : Nat
  ctr : Nat
  cycles : Nat
  corrections : Nat

/-- The `except Exception` clause of the correction loop, entered with
exception text `e` while the counter is `attempts`: increment, then
either correct and continue (`Sum.inr` carries the next loop state), or
return the failure dict, or propagate the exception raised by the
correction call itself (which happens outside any enclosing `try`). -/
def exceptStep (env : OrchEnv) (maxA : Nat) (e faulty : Str)
    (attempts ctr cycles corrections : Nat) :
    Sum LoopOut (Str × Nat × Nat × Nat × Nat) :=
  let a1 := attempts + 1
  if a1 < maxA then
    match correct_code env faulty e ctr with
    | Except.ok code2 => Sum.inr (code2, a1, ctr + 1, cycles, corrections + 1)
    | Except.error e3 => Sum.inl ⟨Except.error e3, a1, ctr + 1, cycles, corrections + 1⟩
  else Sum.inl ⟨Except.ok ⟨false, [], e⟩, a1, ctr, cycles, corrections⟩

/-- The correct-or-terminate step at the two failure sites inside the
`try` block (invalid syntax, runtime failure): increment, then either
return `exhaust` on an exhausted budget, or call `_correct_code`; an
exception raised by that call is caught by the same `try`'s `except`
clause, i.e. handled by `exceptStep`. -/
def tryCorrect (env : OrchEnv) (maxA : Nat) (e faulty : Str) (exhaust : ExecResult)
    (attempts ctr cycles corrections : Nat) :
    Sum LoopOut (Str × Nat × Nat × Nat × Nat) :=
  let a1 := attempts + 1
  if a1 < maxA then
    match correct_code env faulty e ctr with
    | Except.ok code2 => Sum.inr (code2, a1, ctr + 1, cycles, corrections + 1)
    | Except.error e2 => exceptStep env maxA e2 faulty a1 (ctr + 1) cycles (corrections + 1)
  else Sum.inl ⟨Except.ok exhaust, a1, ctr, cycles, corrections⟩

/-- The `while attempts < max_correction_attempts` loop of
`_execute_with_correction`, with explicit fuel.  The entry point passes
`fuel = maxA`, so fuel can run out only when `attempts ≥ maxA`, where the
loop exit returns the `"Max correction attempts exceeded"` dict, exactly
as the fuel-0 case does. -/
def loopFuel (env : OrchEnv) (maxA : Nat) :
    Nat → Str → Nat → Nat → Nat → Nat → LoopOut
  | 0, _, attempts, ctr, cycles, corrections =>
    ⟨Except.ok ⟨false, [], maxExceededMsgS.toList⟩, attempts, ctr, cycles, corrections⟩
  | fuel + 1, code, attempts, ctr, cycles, corrections =>
    if attempts < maxA then
      match env.prepare_code code with
      | Except.error e =>
        match exceptStep env maxA e code attempts ctr cycles corrections with
        | Sum.inl out => out
        | Sum.inr (c2, a2, t2, y2, o2) => loopFuel env maxA fuel c2 a2 t2 y2 o2
      | Except.ok code1 =>
        match env.validate_code code1 with
        | Except.error e =>
          match exceptStep env maxA e code1 attempts ctr cycles corrections with
          | Sum.inl out => out
          | Sum.inr (c2, a2, t2, y2, o2) => loopFuel env maxA fuel c2 a2 t2 y2 o2
        | Except.ok syntax_check =>
          if syntax_check.valid.getD false then
            match env.execute_code code1 with
            | Except.error e =>
              match exceptStep env maxA e code1 attempts ctr (cycles + 1) corrections with
              | Sum.inl out => out
              | Sum.inr (c2, a2, t2, y2, o2) => loopFuel env maxA fuel c2 a2 t2 y2 o2
            | Except.ok result =>
              if result.success then ⟨Except.ok result, attempts, ctr, cycles + 1, corrections⟩
              else
                match tryCorrect env maxA result.error code1 result
                    attempts ctr (cycles + 1) corrections with
                | Sum.inl out => out
                | Sum.inr (c2, a2, t2, y2, o2) => loopFuel env maxA fuel c2 a2 t2 y2 o2
          else
            match tryCorrect env maxA (syntax_check.error.getD invalidCodeCorrMsgS.toList) code1
                ⟨false, [], syntax_check.error.getD invalidCodeMsgS.toList⟩
                attempts ctr cycles corrections with
            | Sum.inl out => out
            | Sum.inr (c2, a2, t2, y2, o2) => loopFuel env maxA fuel c2 a2 t2 y2 o2
    else ⟨Except.ok ⟨false, [], maxExceededMsgS.toList⟩, attempts, ctr, cycles, corrections⟩

/-- The data-injection preamble of `_execute_with_correction`: when raw
data is present, the raw data serialized by `json.dumps(..., default=str)`
is bound to `data`, and the same serialization again to `metadata` when
the raw data is a dict, else the literal `null`. -/
def injectedCode (env : OrchEnv) (code : Str) : Option Json → Str
  | none => code
  | some d =>
    injPreS.toList ++ env.dumps d ++ injMidS.toList ++
      (match d with
       | Json.obj _ => env.dumps d
       | _ => nullLitS.toList) ++ injSufS.toList ++ code

/-- `Orchestrator._execute_with_correction`. -/
def execute_with_correction (env : OrchEnv) (code : Str) (raw_data : Option Json)
    (ctr : Nat) : LoopOut :=
  loopFuel env env.max_correction_attempts env.max_correction_attempts
    (injectedCode env code raw_data) 0 ctr 0 0

/-- `Orchestrator._analyze_data_source`. -/
def analyze_data_source (questions : Str) (data_files : List PyFile) (data_url : Str) :
    Str :=
  if !data_url.isEmpty && !(pyStrip data_url).isEmpty then urlLitS.toList
  else if !data_files.isEmpty then fileLitS.toList
  else if containsSub httpLitS.toList (lowerStr questions) ||
      containsSub wwwLitS.toList (lowerStr questions) then urlInTextLitS.toList
  else textOnlyLitS.toList

/-- `Orchestrator._get_task_breakdown`: one model call, `json.loads` on
the reply, raw-text fallback `{"plan": response, "steps": []}` on a
parse error. -/
def get_task_breakdown (env : OrchEnv) (ctr : Nat) : Except Str Json :=
  match env.llm ctr with
  | Except.error e => Except.error e
  | Except.ok response =>
    match env.jsonParse response with
    | some task_plan => Except.ok task_plan
    | none => Except.ok (Json.obj
        [(planKeyS.toList, Json.str response), (stepsKeyS.toList, Json.arr [])])

/-! ### `Orchestrator._extract_url_from_text`

The regex is `https?://[^\s<>"{}|\\^` `\[\]]+` (the `{{}}` of the raw
source string denotes the two brace characters).  `re.findall` scans
left to right; `urls[0]` is therefore the leftmost match, whose extent
is the greedy run of non-excluded characters after the scheme. -/

def urlStopChar (c : Char) : Bool :=
  isPySpace c || c = '<' || c = '>' || c = '"' || c = '\x7b' || c = '\x7d' ||
    c = '|' || c = '\\' || c = '^' || c = '\x60' || c = '[' || c = ']'

/-- The `[^...]+` tail of the URL regex: the greedy nonempty run. -/
def urlTail (rest : Str) : Option Str :=
  let run := rest.takeWhile (fun c => !urlStopChar c)
  if run.isEmpty then none else some run

/-- Try to match `https?://[^...]+` at the head of `cs`. -/
def matchUrlAt (cs : Str) : Option Str :=
  match stripPref httpsSchemeLitS.toList cs with
  | some rest => (urlTail rest).map (fun run => httpsSchemeLitS.toList ++ run)
  | none =>
    match stripPref httpSchemeLitS.toList cs with
    | some rest => (urlTail rest).map (fun run => httpSchemeLitS.toList ++ run)
    | none => none

/-- Leftmost match of the URL regex in `text`. -/
def findFirstUrl : Str → Option Str
  | [] => none
  | c :: rest =>
    match matchUrlAt (c :: rest) with
    | some u => some u
    | none => findFirstUrl rest

/-- `Orchestrator._extract_url_from_text`: `urls[0] if urls else ""`. -/
def extract_url_from_text (text : Str) : Str :=
  (findFirstUrl text).getD []

/-- Python `task_plan.get("plan", "")`: `dict.get` with a default on a
dict, an `AttributeError` on any other `json.loads` result. -/
def pyDictGet (j : Json) (k : Str) (dflt : Json) : Except Str Json :=
  match j with
  | Json.obj fs => Except.ok ((lookupStr k fs).getD dflt)
  | _ => Except.error attrErrMsgS.toList

/-- `Orchestrator._source_data`.  For `url`/`url_in_text` one
`web_scraper` dispatch (extracting the URL from the task plan's `plan`
text first when the type is `url_in_text` and `data_url` is empty — on a
non-string `plan` value `re.findall` raises `TypeError`); for `file` one
`data_reader` dispatch per uploaded file; else the synthetic empty text
marker. -/
def source_data (env : OrchEnv) (data_source_type : Str) (data_files : List PyFile)
    (data_url : Str) (task_plan : Json) : Except Str Json :=
  if data_source_type = urlLitS.toList ∨ data_source_type = urlInTextLitS.toList then
    match
      (if data_source_type = urlInTextLitS.toList ∧ data_url = [] then
        match pyDictGet task_plan planKeyS.toList (Json.str []) with
        | Except.error e => Except.error e
        | Except.ok (Json.str s) => Except.ok (extract_url_from_text s)
        | Except.ok _ => Except.error findallTypeErrS.toList
      else Except.ok data_url) with
    | Except.error e => Except.error e
    | Except.ok u =>
      execute_tool env.tools webScraperLitS.toList [(urlKeyS.toList, Json.str u)]
  else if data_source_type = fileLitS.toList then
    (data_files.mapM (fun file_info =>
      execute_tool env.tools dataReaderLitS.toList
        [(filenameKeyS.toList, Json.str file_info.filename),
         (contentKeyS.toList, Json.str file_info.content)])).map Json.arr
  else Except.ok (Json.obj
    [(typeKeyS.toList, Json.str textLitS.toList), (contentKeyS.toList, Json.str [])])

/-- `Orchestrator._extract_metadata`. -/
def extract_metadata (env : OrchEnv) (raw_data : Json) (data_source_type : Str) :
    Except Str Json :=
  execute_tool env.tools dataInspectorLitS.toList
    [(dataKeyS.toList, raw_data), (sourceTypeKeyS.toList, Json.str data_source_type)]

/-- `Orchestrator._generate_code`: one model call from the
`2_code_generation` prompt built out of the questions and the serialized
metadata. -/
def generate_code (env : OrchEnv) (_questions : Str) (_metadata : Json) (ctr : Nat) :
    Except Str Str :=
  env.llm ctr

/-! ### `Orchestrator._format_final_output` -/

/-- Longest prefix of `cs` ending at the last occurrence of `ch`
(inclusive), if `ch` occurs. -/
def upToLast (ch : Char) : Str → Option Str
  | [] => none
  | x :: rest =>
    match upToLast ch rest with
    | some r => some (x :: r)
    | none => if x = ch then some [x] else none

/-- `re.search(r'\[.*\]', output, re.DOTALL)`: the leftmost match starts
at the first `[` that still has a `]` after it and, `.*` being greedy
with DOTALL, extends to the last `]` of the text. -/
def searchBracket : Str → Option Str
  | [] => none
  | c :: rest =>
    if c = '[' then
      match upToLast ']' rest with
      | some r => some (c :: r)
      | none => searchBracket rest
    else searchBracket rest

/-- The `results` value computed on the success branch of
`_format_final_output`: the parsed array-literal substring when it is
found and `json.loads` yields a list, else the whole raw output as a
one-element list (also on a parse error or a non-list parse). -/
def resultsOf (env : OrchEnv) (execution_result : ExecResult) : List Json :=
  match searchBracket execution_result.output with
  | some m =>
    match env.jsonParse m with
    | some (Json.arr parsed_results) => parsed_results
    | some _ => [Json.str execution_result.output]
    | none => [Json.str execution_result.output]
  | none => [Json.str execution_result.output]

def successEnvelope (original_questions : Str) (results : List Json) : Json :=
  Json.obj
    [(statusKeyS.toList, Json.str successLitS.toList),
     (questionsKeyS.toList, Json.str original_questions),
     (resultsKeyS.toList, Json.arr results),
     (metadataKeyS.toList, Json.obj
       [(execSuccessKeyS.toList, Json.bool true),
        (processingPipelineKeyS.toList, Json.str completedLitS.toList)])]

def failureEnvelope (original_questions : Str) (error : Str) : Json :=
  Json.obj
    [(statusKeyS.toList, Json.str errorLitS.toList),
     (questionsKeyS.toList, Json.str original_questions),
     (errorKeyS.toList, Json.str error),
     (metadataKeyS.toList, Json.obj
       [(execSuccessKeyS.toList, Json.bool false),
        (processingPipelineKeyS.toList, Json.str failedAtExecLitS.toList)])]

def format_final_output (env : OrchEnv) (execution_result : ExecResult)
    (original_questions : Str) : Json :=
  if execution_result.success then
    let results := resultsOf env execution_result
    if containsSub jsonArrayLitS.toList (lowerStr original_questions) then Json.arr results
    else successEnvelope original_questions results
  else failureEnvelope original_questions execution_result.error

/-! ### `Orchestrator.process_request` -/

/-- The error envelope of the top-level `except` clause of
`process_request`. -/
def processErrorEnvelope (e : Str) : Json :=
  Json.obj
    [(statusKeyS.toList, Json.str errorLitS.toList),
     (messageKeyS.toList, Json.str (processingFailedPreS.toList ++ e)),
     (resultsKeyS.toList, Json.arr [])]

/-- The body of the `try` block of `process_request`: the seven pipeline
stages in sequence, any raised exception propagating out. -/
def pipelineCore (env : OrchEnv) (questions : Str) (data_files : List PyFile)
    (data_url : Str) : Except Str Json :=
  let data_source_type := analyze_data_source questions data_files data_url
  let data_url1 :=
    if data_source_type = urlInTextLitS.toList then
      let extracted_url := extract_url_from_text questions
      if extracted_url.isEmpty then data_url else extracted_url
    else data_url
  match get_task_breakdown env 0 with
  | Except.error e => Except.error e
  | Except.ok task_plan =>
    match source_data env data_source_type data_files data_url1 task_plan with
    | Except.error e => Except.error e
    | Except.ok raw_data =>
      match extract_metadata env raw_data data_source_type with
      | Except.error e => Except.error e
      | Except.ok metadata =>
        match generate_code env questions metadata 1 with
        | Except.error e => Except.error e
        | Except.ok generated_code =>
          let lo := execute_with_correction env generated_code (some raw_data) 2
          match lo.result with
          | Except.error e => Except.error e
          | Except.ok execution_result =>
            Except.ok (format_final_output env execution_result questions)

/-- `Orchestrator.process_request`: the whole pipeline, with every
exception converted at this boundary into the error envelope. -/
def process_request (env : OrchEnv) (questions : Str) (data_files : List PyFile)
    (data_url : Str) : Json :=
  match pipelineCore env questions data_files data_url with
  | Except.ok final_output => final_output
  | Except.error e => processErrorEnvelope e

/-- Observer: the value of the first field of an object when that field
holds a string (used to discriminate envelope shapes). -/
def statusOf : Json → Str
  | Json.obj ((_, Json.str s) :: _) => s
  | _ => []

/-! ## Bounds of the execution-correction loop (claims C1, C10) -/

/-- Resumption of a step outcome: run the remaining loop on a continue
signal, return the terminal outcome otherwise. -/
def resumeOf (env : OrchEnv) (maxA fuel : Nat) :
    Sum LoopOut (Str × Nat × Nat × Nat × Nat) → LoopOut
  | Sum.inl out => out
  | Sum.inr (c2, a2, t2, y2, o2) => loopFuel env maxA fuel c2 a2 t2 y2 o2

lemma loopFuel_succ (env : OrchEnv) (maxA fuel : Nat) (code : Str)
    (attempts ctr cycles corrections : Nat) :
    loopFuel env maxA (fuel + 1) code attempts ctr cycles corrections =
      if attempts < maxA then
        match env.prepare_code code with
        | Except.error e =>
          resumeOf env maxA fuel (exceptStep env maxA e code attempts ctr cycles corrections)
        | Except.ok code1 =>
          match env.validate_code code1 with
          | Except.error e =>
            resumeOf env maxA fuel (exceptStep env maxA e code1 attempts ctr cycles corrections)
          | Except.ok syntax_check =>
            if syntax_check.valid.getD false then
              match env.execute_code code1 with
              | Except.error e =>
                resumeOf env maxA fuel
                  (exceptStep env maxA e code1 attempts ctr (cycles + 1) corrections)
              | Except.ok result =>
                if result.success then
                  ⟨Except.ok result, attempts, ctr, cycles + 1, corrections⟩
                else
                  resumeOf env maxA fuel (tryCorrect env maxA result.error code1 result
                    attempts ctr (cycles + 1) corrections)
            else
              resumeOf env maxA fuel
                (tryCorrect env maxA (syntax_check.error.getD invalidCodeCorrMsgS.toList) code1
                  ⟨false, [], syntax_check.error.getD invalidCodeMsgS.toList⟩
                  attempts ctr cycles corrections)
      else ⟨Except.ok ⟨false, [], maxExceededMsgS.toList⟩, attempts, ctr, cycles, corrections⟩ :=
  rfl

/-- The behaviour invariant threaded through the loop: final `attempts`
bounded by the budget, at most one `execute_code` cycle per remaining
budget unit, at most one correction per remaining budget unit below the
last, and a success result only while the budget is not exhausted. -/
def LoopBounds (maxA attempts cycles corrections : Nat) (out : LoopOut) : Prop :=
  out.attempts ≤ maxA ∧
  out.cycles ≤ cycles + (maxA - attempts) ∧
  out.corrections ≤ corrections + (maxA - 1 - attempts) ∧
  ∀ r, out.result = Except.ok r → r.success = true → out.attempts < maxA

/-- Bounds on a resumed step outcome, relative to the state at the
failure site. -/
def ResumeBounds (maxA a cy co : Nat) (out : LoopOut) : Prop :=
  out.attempts ≤ maxA ∧
  out.cycles ≤ cy + (maxA - (a + 1)) ∧
  out.corrections ≤ co + (maxA - 1 - a) ∧
  ∀ r, out.result = Except.ok r → r.success = true → out.attempts < maxA

lemma exceptStep_cases (env : OrchEnv) (maxA : Nat) (e faulty : Str)
    (a ctr cy co : Nat) :
    (a + 1 < maxA ∧ ∃ c2, env.llm ctr = Except.ok c2 ∧
      exceptStep env maxA e faulty a ctr cy co = Sum.inr (c2, a + 1, ctr + 1, cy, co + 1)) ∨
    (a + 1 < maxA ∧ ∃ e3, env.llm ctr = Except.error e3 ∧
      exceptStep env maxA e faulty a ctr cy co =
        Sum.inl ⟨Except.error e3, a + 1, ctr + 1, cy, co + 1⟩) ∨
    (¬ a + 1 < maxA ∧
      exceptStep env maxA e faulty a ctr cy co =
        Sum.inl ⟨Except.ok ⟨false, [], e⟩, a + 1, ctr, cy, co⟩) := by
  by_cases h : a + 1 < maxA
  · cases hl : env.llm ctr with
    | ok c2 => exact Or.inl ⟨h, c2, rfl, by simp [exceptStep, correct_code, h, hl]⟩
    | error e3 => exact Or.inr (Or.inl ⟨h, e3, rfl, by simp [exceptStep, correct_code, h, hl]⟩)
  · exact Or.inr (Or.inr ⟨h, by simp [exceptStep, correct_code, h]⟩)

lemma tryCorrect_cases (env : OrchEnv) (maxA : Nat) (e faulty : Str) (exh : ExecResult)
    (a ctr cy co : Nat) :
    (a + 1 < maxA ∧ ∃ c2, env.llm ctr = Except.ok c2 ∧
      tryCorrect env maxA e faulty exh a ctr cy co =
        Sum.inr (c2, a + 1, ctr + 1, cy, co + 1)) ∨
    (a + 1 < maxA ∧ ∃ e2, env.llm ctr = Except.error e2 ∧
      tryCorrect env maxA e faulty exh a ctr cy co =
        exceptStep env maxA e2 faulty (a + 1) (ctr + 1) cy (co + 1)) ∨
    (¬ a + 1 < maxA ∧
      tryCorrect env maxA e faulty exh a ctr cy co =
        Sum.inl ⟨Except.ok exh, a + 1, ctr, cy, co⟩) := by
  by_cases h : a + 1 < maxA
  · cases hl : env.llm ctr with
    | ok c2 => exact Or.inl ⟨h, c2, rfl, by simp [tryCorrect, correct_code, h, hl]⟩
    | error e2 => exact Or.inr (Or.inl ⟨h, e2, rfl, by simp [tryCorrect, correct_code, h, hl]⟩)
  · exact Or.inr (Or.inr ⟨h, by simp [tryCorrect, correct_code, h]⟩)

lemma exceptStep_resume (env : OrchEnv) (maxA fuel : Nat)
    (ih : ∀ code a ctr cy co, maxA ≤ fuel + a → a ≤ maxA →
      LoopBounds maxA a cy co (loopFuel env maxA fuel code a ctr cy co))
    (e faulty : Str) (a ctr cy co : Nat) (hA : a < maxA) (hf : maxA ≤ fuel + 1 + a) :
    ResumeBounds maxA a cy co
      (resumeOf env maxA fuel (exceptStep env maxA e faulty a ctr cy co)) := by
  rcases exceptStep_cases env maxA e faulty a ctr cy co with
    ⟨h1, c2, _, hE⟩ | ⟨h1, e3, _, hE⟩ | ⟨h1, hE⟩
  · rw [hE]
    simp only [resumeOf]
    obtain ⟨j1, j2, j3, j4⟩ := ih c2 (a + 1) (ctr + 1) cy (co + 1) (by omega) (by omega)
    exact ⟨j1, by omega, by omega, j4⟩
  · rw [hE]
    refine ⟨?_, ?_, ?_, ?_⟩
    · show a + 1 ≤ maxA
      omega
    · show cy ≤ cy + (maxA - (a + 1))
      omega
    · show co + 1 ≤ co + (maxA - 1 - a)
      omega
    · intro r hr _
      have hr' : (Except.error e3 : Except Str ExecResult) = Except.ok r := hr
      cases hr'
  · rw [hE]
    refine ⟨?_, ?_, ?_, ?_⟩
    · show a + 1 ≤ maxA
      omega
    · show cy ≤ cy + (maxA - (a + 1))
      omega
    · show co ≤ co + (maxA - 1 - a)
      omega
    · intro r hr hs
      have hr' : Except.ok (⟨false, [], e⟩ : ExecResult) = Except.ok r := hr
      injection hr' with h
      rw [← h] at hs
      simp at hs

lemma tryCorrect_resume (env : OrchEnv) (maxA fuel : Nat)
    (ih : ∀ code a ctr cy co, maxA ≤ fuel + a → a ≤ maxA →
      LoopBounds maxA a cy co (loopFuel env maxA fuel code a ctr cy co))
    (e faulty : Str) (exh : ExecResult) (hexh : exh.success = false)
    (a ctr cy co : Nat) (hA : a < maxA) (hf : maxA ≤ fuel + 1 + a) :
    ResumeBounds maxA a cy co
      (resumeOf env maxA fuel (tryCorrect env maxA e faulty exh a ctr cy co)) := by
  rcases tryCorrect_cases env maxA e faulty exh a ctr cy co with
    ⟨h1, c2, _, hE⟩ | ⟨h1, e2, _, hE⟩ | ⟨h1, hE⟩
  · rw [hE]
    simp only [resumeOf]
    obtain ⟨j1, j2, j3, j4⟩ := ih c2 (a + 1) (ctr + 1) cy (co + 1) (by omega) (by omega)
    exact ⟨j1, by omega, by omega, j4⟩
  · rw [hE]
    obtain ⟨j1, j2, j3, j4⟩ :=
      exceptStep_resume env maxA fuel ih e2 faulty (a + 1) (ctr + 1) cy (co + 1) h1 (by omega)
    exact ⟨j1, by omega, by omega, j4⟩
  · rw [hE]
    refine ⟨?_, ?_, ?_, ?_⟩
    · show a + 1 ≤ maxA
      omega
    · show cy ≤ cy + (maxA - (a + 1))
      omega
    · show co ≤ co + (maxA - 1 - a)
      omega
    · intro r hr hs
      have hr' : Except.ok exh = Except.ok r := hr
      injection hr' with h
      rw [← h, hexh] at hs
      cases hs

lemma loopFuel_bounds (env : OrchEnv) (maxA : Nat) :
    ∀ fuel code attempts ctr cycles corrections,
      maxA ≤ fuel + attempts → attempts ≤ maxA →
      LoopBounds maxA attempts cycles corrections
        (loopFuel env maxA fuel code attempts ctr cycles corrections) := by
  intro fuel
  induction fuel with
  | zero =>
    intro code a ctr cy co h1 h2
    refine ⟨?_, ?_, ?_, ?_⟩
    · show a ≤ maxA
      exact h2
    · show cy ≤ cy + (maxA - a)
      omega
    · show co ≤ co + (maxA - 1 - a)
      omega
    · intro r hr hs
      have hr' : Except.ok (⟨false, [], maxExceededMsgS.toList⟩ : ExecResult) = Except.ok r := hr
      injection hr' with h
      rw [← h] at hs
      simp at hs
  | succ fuel ih =>
    intro code a ctr cy co h1 h2
    by_cases hA : a < maxA
    · rw [loopFuel_succ, if_pos hA]
      cases hp : env.prepare_code code with
      | error e =>
        simp only []
        obtain ⟨j1, j2, j3, j4⟩ :=
          exceptStep_resume env maxA fuel ih e code a ctr cy co hA (by omega)
        exact ⟨j1, by omega, by omega, j4⟩
      | ok code1 =>
        simp only []
        cases hv : env.validate_code code1 with
        | error e =>
          simp only []
          obtain ⟨j1, j2, j3, j4⟩ :=
            exceptStep_resume env maxA fuel ih e code1 a ctr cy co hA (by omega)
          exact ⟨j1, by omega, by omega, j4⟩
        | ok sc =>
          simp only []
          by_cases hvv : sc.valid.getD false = true
          · rw [if_pos hvv]
            cases hx : env.execute_code code1 with
            | error e =>
              simp only []
              obtain ⟨j1, j2, j3, j4⟩ :=
                exceptStep_resume env maxA fuel ih e code1 a ctr (cy + 1) co hA (by omega)
              exact ⟨j1, by omega, by omega, j4⟩
            | ok r =>
              simp only []
              by_cases hrs : r.success = true
              · rw [if_pos hrs]
                refine ⟨?_, ?_, ?_, ?_⟩
                · show a ≤ maxA
                  exact h2
                · show cy + 1 ≤ cy + (maxA - a)
                  omega
                · show co ≤ co + (maxA - 1 - a)
                  omega
                · intro r0 _ _
                  show a < maxA
                  exact hA
              · rw [if_neg hrs]
                obtain ⟨j1, j2, j3, j4⟩ := tryCorrect_resume env maxA fuel ih r.error code1 r
                  (by revert hrs; cases r.success <;> simp) a ctr (cy + 1) co hA (by omega)
                exact ⟨j1, by omega, by omega, j4⟩
          · rw [if_neg hvv]
            obtain ⟨j1, j2, j3, j4⟩ := tryCorrect_resume env maxA fuel ih
              (sc.error.getD invalidCodeCorrMsgS.toList) code1
              ⟨false, [], sc.error.getD invalidCodeMsgS.toList⟩ rfl a ctr cy co hA (by omega)
            exact ⟨j1, by omega, by omega, j4⟩
    · rw [loopFuel_succ, if_neg hA]
      refine ⟨?_, ?_, ?_, ?_⟩
      · show a ≤ maxA
        exact h2
      · show cy ≤ cy + (maxA - a)
        omega
      · show co ≤ co + (maxA - 1 - a)
        omega
      · intro r hr hs
        have hr' : Except.ok (⟨false, [], maxExceededMsgS.toList⟩ : ExecResult) = Except.ok r := hr
        injection hr' with h
        rw [← h] at hs
        simp at hs

/-- C1: for every request the execution-correction loop performs at most
`max_correction_attempts` code-execution cycles and the attempt counter
never exceeds `max_correction_attempts`, whatever mixture of syntax
failures, runtime failures and collaborator exceptions the environment
produces; and when the loop ends with the budget exhausted the returned
result has `success = false`. -/
theorem C1_correction_loop_bound (env : OrchEnv) (code : Str) (raw_data : Option Json)
    (ctr : Nat) :
    (execute_with_correction env code raw_data ctr).cycles ≤ env.max_correction_attempts ∧
    (execute_with_correction env code raw_data ctr).attempts ≤ env.max_correction_attempts ∧
    ∀ r, (execute_with_correction env code raw_data ctr).result = Except.ok r →
      (execute_with_correction env code raw_data ctr).attempts = env.max_correction_attempts →
      r.success = false := by
  obtain ⟨j1, j2, j3, j4⟩ := loopFuel_bounds env env.max_correction_attempts
    env.max_correction_attempts (injectedCode env code raw_data) 0 ctr 0 0 (by omega) (by omega)
  refine ⟨?_, ?_, ?_⟩
  · have g : (execute_with_correction env code raw_data ctr).cycles =
      (loopFuel env env.max_correction_attempts env.max_correction_attempts
        (injectedCode env code raw_data) 0 ctr 0 0).cycles := rfl
    rw [g]
    omega
  · have g : (execute_with_correction env code raw_data ctr).attempts =
      (loopFuel env env.max_correction_attempts env.max_correction_attempts
        (injectedCode env code raw_data) 0 ctr 0 0).attempts := rfl
    rw [g]
    omega
  · intro r hr hmax
    by_cases hs : r.success = true
    · have hlt := j4 r hr hs
      have g : (execute_with_correction env code raw_data ctr).attempts =
        (loopFuel env env.max_correction_attempts env.max_correction_attempts
          (injectedCode env code raw_data) 0 ctr 0 0).attempts := rfl
      rw [g] at hmax
      omega
    · exact Bool.eq_false_iff.mpr hs

def boomS : String := "boom"
def wCodeS : String := "print(1)"

/-- Witness environment for C1: two correction attempts allowed, every
execution fails at runtime, every correction call returns new code. -/
def envW1 : OrchEnv :=
  ⟨fun _ => Except.ok wCodeS.toList,
   fun _ => none,
   fun _ => [],
   fun c => Except.ok c,
   fun _ => Except.ok ⟨some true, none⟩,
   fun _ => Except.ok ⟨false, [], boomS.toList⟩,
   ⟨fun _ => Except.ok Json.null, fun _ _ => Except.ok Json.null,
    fun _ _ => Except.ok Json.null⟩,
   2⟩

theorem C1_correction_loop_bound_witness :
    (execute_with_correction envW1 wCodeS.toList none 0).result =
      Except.ok ⟨false, [], boomS.toList⟩ ∧
    (execute_with_correction envW1 wCodeS.toList none 0).attempts =
      envW1.max_correction_attempts ∧
    (⟨false, [], boomS.toList⟩ : ExecResult).success = false :=
  ⟨rfl, rfl,
    (C1_correction_loop_bound envW1 wCodeS.toList none 0).2.2
      ⟨false, [], boomS.toList⟩ rfl rfl⟩

/-- C10: per request, the model is asked for a code correction at most
`max_correction_attempts - 1` times: each correction request is guarded
by a fresh increment leaving budget, so the final failing attempt never
triggers a further correction call. -/
theorem C10_correction_call_bound (env : OrchEnv) (code : Str) (raw_data : Option Json)
    (ctr : Nat) :
    (execute_with_correction env code raw_data ctr).corrections ≤
      env.max_correction_attempts - 1 := by
  obtain ⟨j1, j2, j3, j4⟩ := loopFuel_bounds env env.max_correction_attempts
    env.max_correction_attempts (injectedCode env code raw_data) 0 ctr 0 0 (by omega) (by omega)
  have g : (execute_with_correction env code raw_data ctr).corrections =
    (loopFuel env env.max_correction_attempts env.max_correction_attempts
      (injectedCode env code raw_data) 0 ctr 0 0).corrections := rfl
  rw [g]
  omega

/-! ## Prompt truncation (claim C2) -/

/-- C2: truncation is the identity whenever the estimated token count
`length / 4` is at most the budget; for a prompt whose estimate exceeds
a positive budget, the result's length is the character budget
`budget * 4` plus the marker length, its prefix is the original prompt's
head and its suffix is the original prompt's tail. -/
theorem C2_truncate_prompt_spec (prompt : Str) (budget : Nat) :
    (prompt.length / 4 ≤ budget → truncate_prompt prompt budget = prompt) ∧
    (1 ≤ budget → budget < prompt.length / 4 →
      (truncate_prompt prompt budget).length = budget * 4 + truncMarker.length ∧
      (truncate_prompt prompt budget).take (budget * 2) = prompt.take (budget * 2) ∧
      (truncate_prompt prompt budget).drop
          ((truncate_prompt prompt budget).length - budget * 2) =
        prompt.drop (prompt.length - budget * 2)) := by
  constructor
  · intro h
    simp only [truncate_prompt, estimate_tokens]
    rw [if_pos h]
  · intro hb hgt
    have hlen : budget * 4 + 4 ≤ prompt.length := by omega
    have hks : budget * 4 / 2 = budget * 2 := by omega
    have hps : pySliceLast prompt (budget * 2) = prompt.drop (prompt.length - budget * 2) := by
      simp only [pySliceLast]
      rw [if_neg (by omega)]
    have hresult : truncate_prompt prompt budget =
        prompt.take (budget * 2) ++ (truncMarker ++ prompt.drop (prompt.length - budget * 2)) := by
      simp only [truncate_prompt, estimate_tokens]
      rw [if_neg (by omega), if_neg (by omega), hks, hps]
    have hA : (prompt.take (budget * 2)).length = budget * 2 := by
      rw [List.length_take]
      omega
    have hC : (prompt.drop (prompt.length - budget * 2)).length = budget * 2 := by
      rw [List.length_drop]
      omega
    have hlenr : (truncate_prompt prompt budget).length = budget * 4 + truncMarker.length := by
      rw [hresult]
      simp only [List.length_append, hA, hC]
      omega
    refine ⟨hlenr, ?_, ?_⟩
    · have ht := List.take_left (prompt.take (budget * 2))
        (truncMarker ++ prompt.drop (prompt.length - budget * 2))
      rw [hA] at ht
      rw [hresult, ht]
    · rw [hlenr, hresult]
      have hd : budget * 4 + truncMarker.length - budget * 2 =
          (prompt.take (budget * 2) ++ truncMarker).length := by
        simp only [List.length_append, hA]
        omega
      rw [hd, ← List.append_assoc, List.drop_left]

def promptW2S : String := "abcdefgh"

theorem C2_truncate_prompt_witness :
    1 ≤ 1 ∧ 1 < promptW2S.toList.length / 4 ∧
    (truncate_prompt promptW2S.toList 1).length = 1 * 4 + truncMarker.length ∧
    (truncate_prompt promptW2S.toList 1).take (1 * 2) = promptW2S.toList.take (1 * 2) ∧
    (truncate_prompt promptW2S.toList 1).drop
        ((truncate_prompt promptW2S.toList 1).length - 1 * 2) =
      promptW2S.toList.drop (promptW2S.toList.length - 1 * 2) :=
  ⟨le_refl 1, by decide,
    (C2_truncate_prompt_spec promptW2S.toList 1).2 (le_refl 1) (by decide)⟩

/-! ## Source classification (claim C3) -/

def qC3S : String := "hi"
def spaceS : String := " "

/-- C3 counterexample: a whitespace-only `data_url` is non-empty, yet
`_analyze_data_source` does not classify the request as `url` (the code
requires `data_url.strip()` to be truthy as well): with question
`"hi"`, no files and `data_url = " "`, the result is `text_only`. -/
theorem C3_source_classification_counterexample :
    spaceS.toList ≠ [] ∧
    analyze_data_source qC3S.toList [] spaceS.toList ≠ urlLitS.toList ∧
    analyze_data_source qC3S.toList [] spaceS.toList = textOnlyLitS.toList := by
  refine ⟨by decide, by decide, by decide⟩

/-- C3 amended: the priority chain, with the first guard corrected from
"`data_url` is non-empty" to "`data_url` contains a non-whitespace
character" (i.e. `data_url.strip()` is non-empty): then `url`; else if
`data_files` is non-empty then `file`; else if the question contains
`"http"` or `"www."` case-insensitively then `url_in_text`; else
`text_only`. -/
theorem C3_source_classification_amended (questions : Str) (data_files : List PyFile)
    (data_url : Str) :
    ((pyStrip data_url).isEmpty = false →
      analyze_data_source questions data_files data_url = urlLitS.toList) ∧
    ((pyStrip data_url).isEmpty = true → data_files ≠ [] →
      analyze_data_source questions data_files data_url = fileLitS.toList) ∧
    ((pyStrip data_url).isEmpty = true → data_files = [] →
      (containsSub httpLitS.toList (lowerStr questions) = true ∨
       containsSub wwwLitS.toList (lowerStr questions) = true) →
      analyze_data_source questions data_files data_url = urlInTextLitS.toList) ∧
    ((pyStrip data_url).isEmpty = true → data_files = [] →
      containsSub httpLitS.toList (lowerStr questions) = false →
      containsSub wwwLitS.toList (lowerStr questions) = false →
      analyze_data_source questions data_files data_url = textOnlyLitS.toList) := by
  refine ⟨?_, ?_, ?_, ?_⟩
  · intro h
    have hne : data_url.isEmpty = false := by
      cases data_url with
      | nil => simp [pyStrip, List.dropWhile] at h
      | cons c cs => rfl
    simp [analyze_data_source, hne, h]
  · intro h hf
    have hne : data_files.isEmpty = false := by
      cases data_files with
      | nil => exact absurd rfl hf
      | cons f fs => rfl
    simp [analyze_data_source, h, hne]
  · intro h hf hor
    rcases hor with hc | hc
    · have hc' : containsSub httpLitS.data (lowerStr questions) = true := hc
      simp [analyze_data_source, h, hf, hc']
    · have hc' : containsSub wwwLitS.data (lowerStr questions) = true := hc
      simp [analyze_data_source, h, hf, hc']
  · intro h hf h1 h2
    have h1' : containsSub httpLitS.data (lowerStr questions) = false := h1
    have h2' : containsSub wwwLitS.data (lowerStr questions) = false := h2
    simp [analyze_data_source, h, hf, h1', h2']

def qW3S : String := "see www.example.com"

theorem C3_source_classification_witness :
    (pyStrip ([] : Str)).isEmpty = true ∧
    containsSub wwwLitS.toList (lowerStr qW3S.toList) = true ∧
    analyze_data_source qW3S.toList [] [] = urlInTextLitS.toList :=
  ⟨by decide, by decide,
    (C3_source_classification_amended qW3S.toList [] []).2.2.1 (by decide) rfl
      (Or.inr (by decide))⟩

/-! ## Top-level error boundary (claim C4) -/

/-- C4: `process_request` is a total function; for every input and
environment it either returns the pipeline's own output, or — whenever
any stage of the pipeline raises an exception — the error envelope
`{status: "error", message: "Processing failed: ...", results: []}`.
No exception ever propagates past this boundary. -/
theorem C4_process_request_envelope (env : OrchEnv) (questions : Str)
    (data_files : List PyFile) (data_url : Str) :
    (∃ out, pipelineCore env questions data_files data_url = Except.ok out ∧
      process_request env questions data_files data_url = out) ∨
    (∃ e, pipelineCore env questions data_files data_url = Except.error e ∧
      process_request env questions data_files data_url = processErrorEnvelope e) := by
  cases h : pipelineCore env questions data_files data_url with
  | ok out => exact Or.inl ⟨out, rfl, by simp [process_request, h]⟩
  | error e => exact Or.inr ⟨e, rfl, by simp [process_request, h]⟩

/-! ## Gateway retry policy (claim C5) -/

lemma callLoop_all_fail (gen : Nat → Except Str Str) (mr rd : Nat) (errs : Nat → Str)
    (hfail : ∀ i, gen i = Except.error (errs i)) :
    ∀ fuel attempt, mr ≤ fuel + attempt → attempt < mr →
      (callLoop gen mr rd fuel attempt).attemptsMade = mr ∧
      (callLoop gen mr rd fuel attempt).sleepTotal = rd * (2 ^ (mr - 1) - 2 ^ attempt) ∧
      (callLoop gen mr rd fuel attempt).result = Except.error (errs (mr - 1)) := by
  intro fuel
  induction fuel with
  | zero =>
    intro a h1 h2
    omega
  | succ fuel ih =>
    intro a h1 h2
    by_cases hlast : a < mr - 1
    · obtain ⟨j1, j2, j3⟩ := ih (a + 1) (by omega) (by omega)
      simp only [callLoop, if_pos h2, hfail a, if_pos hlast]
      refine ⟨j1, ?_, j3⟩
      rw [j2]
      have e1 : (2:Nat) ^ (a + 1) = 2 ^ a * 2 := pow_succ 2 a
      have e2 : (2:Nat) ^ (a + 1) ≤ 2 ^ (mr - 1) := Nat.pow_le_pow_right (by omega) (by omega)
      have e4 : (1:Nat) ≤ 2 ^ a := Nat.one_le_two_pow
      have e3 : 2 ^ a + (2 ^ (mr - 1) - 2 ^ (a + 1)) = 2 ^ (mr - 1) - 2 ^ a := by omega
      rw [← Nat.mul_add, e3]
    · have ha : a = mr - 1 := by omega
      simp only [callLoop, if_pos h2, hfail a, if_neg hlast]
      refine ⟨by omega, ?_, by rw [ha]⟩
      rw [ha]
      simp
  
lemma sum_range_two_pow (rd n : Nat) :
    Finset.sum (Finset.range n) (fun i => rd * 2 ^ i) = rd * (2 ^ n - 1) := by
  induction n with
  | zero => simp
  | succ n ih =>
    rw [Finset.sum_range_succ, ih]
    have h1 : (1:Nat) ≤ 2 ^ n := Nat.one_le_two_pow
    have h2 : (2:Nat) ^ (n + 1) = 2 ^ n * 2 := pow_succ 2 n
    have e3 : (2 ^ n - 1) + 2 ^ n = 2 ^ (n + 1) - 1 := by omega
    rw [← Nat.mul_add, e3]

/-- C5: with a configured credential and a persistently failing model
call, the gateway makes exactly `max_retries` attempts, sleeps
`retry_delay * 2^attempt` after each failed attempt except the last
(cumulative `retry_delay * (2^0 + ... + 2^(max_retries-2))`), and then
fails carrying the last underlying error; with no credential it fails
immediately with the configuration error and makes no attempt. -/
theorem C5_gateway_retry_spec (cfg : LLMConfig) (gen : Nat → Str → Except Str Str)
    (prompt : Str) (errs : Nat → Str)
    (hfail : ∀ i s, gen i s = Except.error (errs i))
    (hmr : 1 ≤ cfg.max_retries) :
    (∀ k, cfg.api_key = some k → k.isEmpty = false →
      (call_llm cfg gen prompt).attemptsMade = cfg.max_retries ∧
      (call_llm cfg gen prompt).sleepTotal =
        Finset.sum (Finset.range (cfg.max_retries - 1)) (fun i => cfg.retry_delay * 2 ^ i) ∧
      (call_llm cfg gen prompt).result = Except.error (errs (cfg.max_retries - 1))) ∧
    (cfg.api_key = none →
      (call_llm cfg gen prompt).result = Except.error apiKeyMsgS.toList ∧
      (call_llm cfg gen prompt).attemptsMade = 0) ∧
    (∀ k, cfg.api_key = some k → k.isEmpty = true →
      (call_llm cfg gen prompt).result = Except.error apiKeyMsgS.toList ∧
      (call_llm cfg gen prompt).attemptsMade = 0) := by
  refine ⟨?_, ?_, ?_⟩
  · intro k hk hke
    obtain ⟨j1, j2, j3⟩ := callLoop_all_fail (fun i => gen i (truncate_prompt prompt 3000))
      cfg.max_retries cfg.retry_delay errs (fun i => hfail i _) cfg.max_retries 0
      (by omega) (by omega)
    have hc : call_llm cfg gen prompt =
        callLoop (fun i => gen i (truncate_prompt prompt 3000)) cfg.max_retries
          cfg.retry_delay cfg.max_retries 0 := by
      simp [call_llm, hk, hke]
    rw [hc]
    refine ⟨j1, ?_, j3⟩
    rw [j2, sum_range_two_pow]
    simp
  · intro hk
    simp [call_llm, hk]
  · intro k hk hke
    simp [call_llm, hk, hke]

def boomW5S : String := "provider down"
def promptW5S : String := "hello"
def cfgW5 : LLMConfig := ⟨some ['k'], 3, 1⟩
def genW5 : Nat → Str → Except Str Str := fun _ _ => Except.error boomW5S.toList
def errsW5 : Nat → Str := fun _ => boomW5S.toList

theorem C5_gateway_retry_witness :
    (call_llm cfgW5 genW5 promptW5S.toList).attemptsMade = cfgW5.max_retries ∧
    (call_llm cfgW5 genW5 promptW5S.toList).sleepTotal =
      Finset.sum (Finset.range (cfgW5.max_retries - 1)) (fun i => cfgW5.retry_delay * 2 ^ i) ∧
    (call_llm cfgW5 genW5 promptW5S.toList).result =
      Except.error (errsW5 (cfgW5.max_retries - 1)) :=
  (C5_gateway_retry_spec cfgW5 genW5 promptW5S.toList errsW5 (fun i s => rfl)
    (by decide)).1 ['k'] rfl rfl

/-! ## Task-plan construction (claim C7) -/

/-- C7: task-plan construction never fails once the model has replied:
an unparseable reply becomes `{plan: raw reply, steps: []}` rather than
an error, and a parseable reply becomes the parsed structure. -/
theorem C7_task_breakdown_fallback (env : OrchEnv) (ctr : Nat) (resp : Str)
    (h : env.llm ctr = Except.ok resp) :
    (env.jsonParse resp = none →
      get_task_breakdown env ctr = Except.ok (Json.obj
        [(planKeyS.toList, Json.str resp), (stepsKeyS.toList, Json.arr [])])) ∧
    (∀ j, env.jsonParse resp = some j → get_task_breakdown env ctr = Except.ok j) := by
  constructor
  · intro hp
    simp [get_task_breakdown, h, hp]
  · intro j hp
    simp [get_task_breakdown, h, hp]

def respW7S : String := "a raw plan"

def envW7 : OrchEnv :=
  ⟨fun _ => Except.ok respW7S.toList, fun _ => none, fun _ => [], fun c => Except.ok c,
   fun _ => Except.ok ⟨some true, none⟩, fun _ => Except.ok ⟨true, [], []⟩,
   ⟨fun _ => Except.ok Json.null, fun _ _ => Except.ok Json.null,
    fun _ _ => Except.ok Json.null⟩, 3⟩

theorem C7_task_breakdown_witness :
    envW7.jsonParse respW7S.toList = none ∧
    get_task_breakdown envW7 0 = Except.ok (Json.obj
      [(planKeyS.toList, Json.str respW7S.toList), (stepsKeyS.toList, Json.arr [])]) :=
  ⟨rfl, (C7_task_breakdown_fallback envW7 0 respW7S.toList rfl).1 rfl⟩

/-! ## Tool dispatch errors (claim C8) -/

/-- C8: dispatch fails with the tool-not-found error for every name
outside `{web_scraper, data_inspector, data_reader}`, and with the
missing-parameter error whenever the required parameter is absent:
`url` for `web_scraper`, `data` for `data_inspector`, `content` for
`data_reader`. -/
theorem C8_tool_dispatch_errors (env : ToolEnv) (tool_name : Str)
    (parameters : List (Str × Json)) :
    (tool_name ≠ webScraperLitS.toList → tool_name ≠ dataInspectorLitS.toList →
      tool_name ≠ dataReaderLitS.toList →
      execute_tool env tool_name parameters = Except.error (toolNotFoundMsg tool_name)) ∧
    (lookupStr urlKeyS.toList parameters = none →
      execute_tool env webScraperLitS.toList parameters =
        Except.error urlRequiredMsgS.toList) ∧
    (lookupStr dataKeyS.toList parameters = none →
      execute_tool env dataInspectorLitS.toList parameters =
        Except.error dataRequiredMsgS.toList) ∧
    (lookupStr contentKeyS.toList parameters = none →
      execute_tool env dataReaderLitS.toList parameters =
        Except.error contentRequiredMsgS.toList) := by
  have d1 : dataInspectorLitS.data ≠ webScraperLitS.data := by decide
  have d2 : dataReaderLitS.data ≠ webScraperLitS.data := by decide
  have d3 : dataReaderLitS.data ≠ dataInspectorLitS.data := by decide
  refine ⟨?_, ?_, ?_, ?_⟩
  · intro h1 h2 h3
    have h1' : tool_name ≠ webScraperLitS.data := h1
    have h2' : tool_name ≠ dataInspectorLitS.data := h2
    have h3' : tool_name ≠ dataReaderLitS.data := h3
    simp [execute_tool, h1', h2', h3']
  · intro h
    have h' : lookupStr urlKeyS.data parameters = none := h
    simp [execute_tool, execute_web_scraper, h', pyFalsy]
  · intro h
    have h' : lookupStr dataKeyS.data parameters = none := h
    simp [execute_tool, execute_data_inspector, d1, h']
  · intro h
    have h' : lookupStr contentKeyS.data parameters = none := h
    simp [execute_tool, execute_data_reader, d2, d3, h']

def fooS : String := "foo"

def envW8 : ToolEnv :=
  ⟨fun _ => Except.ok Json.null, fun _ _ => Except.ok Json.null,
   fun _ _ => Except.ok Json.null⟩

theorem C8_tool_dispatch_witness :
    fooS.toList ≠ webScraperLitS.toList ∧
    lookupStr urlKeyS.toList ([] : List (Str × Json)) = none ∧
    execute_tool envW8 fooS.toList [] = Except.error (toolNotFoundMsg fooS.toList) ∧
    execute_tool envW8 webScraperLitS.toList [] = Except.error urlRequiredMsgS.toList :=
  ⟨by decide, rfl,
   (C8_tool_dispatch_errors envW8 fooS.toList []).1 (by decide) (by decide) (by decide),
   (C8_tool_dispatch_errors envW8 webScraperLitS.toList []).2.1 rfl⟩

/-! ## Output formatting (claim C6) -/

lemma upToLast_some (ch : Char) : ∀ (l r : Str), upToLast ch l = some r →
    ∃ r0 t, r = r0 ++ [ch] ∧ l = r ++ t := by
  intro l
  induction l with
  | nil =>
    intro r h
    simp [upToLast] at h
  | cons x rest ih =>
    intro r h
    simp only [upToLast] at h
    cases hu : upToLast ch rest with
    | some r2 =>
      rw [hu] at h
      injection h with h
      obtain ⟨r0, t, hr0, ht⟩ := ih r2 hu
      refine ⟨x :: r0, t, ?_, ?_⟩
      · rw [← h, hr0]
        rfl
      · rw [← h, ht]
        rfl
    | none =>
      rw [hu] at h
      by_cases hx : x = ch
      · rw [if_pos hx] at h
        injection h with h
        refine ⟨[], rest, ?_, ?_⟩
        · rw [← h, hx]
          rfl
        · rw [← h]
          rfl
      · rw [if_neg hx] at h
        cases h

lemma searchBracket_shape : ∀ (s m : Str), searchBracket s = some m →
    ∃ mid pre post, m = '[' :: (mid ++ [']']) ∧ s = pre ++ (m ++ post) := by
  intro s
  induction s with
  | nil =>
    intro m h
    simp [searchBracket] at h
  | cons c rest ih =>
    intro m h
    simp only [searchBracket] at h
    by_cases hc : c = '['
    · rw [if_pos hc] at h
      cases hu : upToLast ']' rest with
      | some r =>
        rw [hu] at h
        injection h with h
        obtain ⟨r0, t, hr0, ht⟩ := upToLast_some ']' rest r hu
        refine ⟨r0, [], t, ?_, ?_⟩
        · rw [← h, hc, hr0]
        · rw [← h, ht]
          rfl
      | none =>
        rw [hu] at h
        obtain ⟨mid, pre, post, h1, h2⟩ := ih m h
        exact ⟨mid, c :: pre, post, h1, by rw [h2]; rfl⟩
    · rw [if_neg hc] at h
      obtain ⟨mid, pre, post, h1, h2⟩ := ih m h
      exact ⟨mid, c :: pre, post, h1, by rw [h2]; rfl⟩

/-- C6: on a successful execution the formatter looks for an
array-literal substring of the raw output (a `[...]` segment of the
output, when the search succeeds); if it parses as a sequence it becomes
`results`, otherwise `results` is the one-element sequence holding the
whole raw output; and when the question contains `"json array"`
case-insensitively the `results` sequence itself is returned instead of
the status-wrapped envelope. -/
theorem C6_output_format_spec (env : OrchEnv) (execution_result : ExecResult)
    (original_questions : Str) (hs : execution_result.success = true) :
    (∀ m, searchBracket execution_result.output = some m →
      ∃ mid pre post, m = '[' :: (mid ++ [']']) ∧
        execution_result.output = pre ++ (m ++ post)) ∧
    (∀ m xs, searchBracket execution_result.output = some m →
      env.jsonParse m = some (Json.arr xs) →
      resultsOf env execution_result = xs) ∧
    (searchBracket execution_result.output = none →
      resultsOf env execution_result = [Json.str execution_result.output]) ∧
    (∀ m, searchBracket execution_result.output = some m →
      (∀ xs, env.jsonParse m ≠ some (Json.arr xs)) →
      resultsOf env execution_result = [Json.str execution_result.output]) ∧
    (containsSub jsonArrayLitS.toList (lowerStr original_questions) = true →
      format_final_output env execution_result original_questions =
        Json.arr (resultsOf env execution_result)) ∧
    (containsSub jsonArrayLitS.toList (lowerStr original_questions) = false →
      format_final_output env execution_result original_questions =
        successEnvelope original_questions (resultsOf env execution_result)) := by
  refine ⟨?_, ?_, ?_, ?_, ?_, ?_⟩
  · intro m hm
    exact searchBracket_shape _ m hm
  · intro m xs hm hp
    simp [resultsOf, hm, hp]
  · intro hm
    simp [resultsOf, hm]
  · intro m hm hp
    simp only [resultsOf, hm]
    cases hj : env.jsonParse m with
    | none => rfl
    | some j =>
      cases j with
      | arr xs => exact absurd hj (hp xs)
      | null => rfl
      | bool b => rfl
      | num n => rfl
      | str s2 => rfl
      | obj fs => rfl
  · intro hq
    have hq' : containsSub jsonArrayLitS.data (lowerStr original_questions) = true := hq
    simp [format_final_output, hs, hq']
  · intro hq
    have hq' : containsSub jsonArrayLitS.data (lowerStr original_questions) = false := hq
    simp [format_final_output, hs, hq']

def outW6S : String := "[4]"
def qW6S : String := "What is 2+2? Respond as a json array."

def envW6 : OrchEnv :=
  ⟨fun _ => Except.ok [], fun _ => some (Json.arr [Json.num 4]), fun _ => [],
   fun c => Except.ok c, fun _ => Except.ok ⟨some true, none⟩,
   fun _ => Except.ok ⟨true, outW6S.toList, []⟩,
   ⟨fun _ => Except.ok Json.null, fun _ _ => Except.ok Json.null,
    fun _ _ => Except.ok Json.null⟩, 3⟩

def rW6 : ExecResult := ⟨true, outW6S.toList, []⟩

theorem C6_output_format_witness :
    rW6.success = true ∧
    searchBracket rW6.output = some outW6S.toList ∧
    containsSub jsonArrayLitS.toList (lowerStr qW6S.toList) = true ∧
    resultsOf envW6 rW6 = [Json.num 4] ∧
    format_final_output envW6 rW6 qW6S.toList = Json.arr (resultsOf envW6 rW6) :=
  ⟨rfl, by decide, by decide,
   (C6_output_format_spec envW6 rW6 qW6S.toList rfl).2.1 outW6S.toList [Json.num 4]
     (by decide) rfl,
   (C6_output_format_spec envW6 rW6 qW6S.toList rfl).2.2.2.2.1 (by decide)⟩

/-! ## URL extraction and the `url_in_text` failure path (claim C9) -/

lemma containsSub_false_cons (needle : Str) (c : Char) (rest : Str)
    (h : containsSub needle (c :: rest) = false) :
    stripPref needle (c :: rest) = none ∧ containsSub needle rest = false := by
  simp only [containsSub, Bool.or_eq_false_iff] at h
  obtain ⟨h1, h2⟩ := h
  refine ⟨?_, h2⟩
  cases hq : stripPref needle (c :: rest) with
  | none => rfl
  | some r =>
    rw [hq] at h1
    simp at h1

lemma matchUrlAt_eq_none (cs : Str)
    (h1 : stripPref httpSchemeLitS.toList cs = none)
    (h2 : stripPref httpsSchemeLitS.toList cs = none) :
    matchUrlAt cs = none := by
  simp only [matchUrlAt, h1, h2]

lemma findFirstUrl_eq_none (text : Str)
    (h1 : containsSub httpSchemeLitS.toList text = false)
    (h2 : containsSub httpsSchemeLitS.toList text = false) :
    findFirstUrl text = none := by
  induction text with
  | nil => rfl
  | cons c rest ih =>
    obtain ⟨h1a, h1b⟩ := containsSub_false_cons _ _ _ h1
    obtain ⟨h2a, h2b⟩ := containsSub_false_cons _ _ _ h2
    simp only [findFirstUrl, matchUrlAt_eq_none (c :: rest) h1a h2a]
    exact ih h1b h2b

lemma extract_url_empty (text : Str)
    (h1 : containsSub httpSchemeLitS.toList text = false)
    (h2 : containsSub httpsSchemeLitS.toList text = false) :
    extract_url_from_text text = [] := by
  simp [extract_url_from_text, findFirstUrl_eq_none text h1 h2]

/-- C9 (amended: the request's `data_url` must be empty, not merely
whitespace): classification as `url_in_text` does not guarantee a usable
URL.  When the question contains `"www."` but neither the question nor
the task plan's `plan` text contains an `http://` or `https://`
substring, URL extraction returns the empty string, the `web_scraper`
dispatch with an empty `url` parameter raises, and the request yields
the top-level error envelope. -/
theorem C9_url_extraction_amended (env : OrchEnv) (questions : Str)
    (hwww : containsSub wwwLitS.toList (lowerStr questions) = true)
    (hq1 : containsSub httpSchemeLitS.toList questions = false)
    (hq2 : containsSub httpsSchemeLitS.toList questions = false)
    (hplan : ∀ j s, get_task_breakdown env 0 = Except.ok j →
      pyDictGet j planKeyS.toList (Json.str []) = Except.ok (Json.str s) →
      containsSub httpSchemeLitS.toList s = false ∧
      containsSub httpsSchemeLitS.toList s = false) :
    extract_url_from_text questions = [] ∧
    execute_tool env.tools webScraperLitS.toList [(urlKeyS.toList, Json.str [])] =
      Except.error urlRequiredMsgS.toList ∧
    ∃ e, process_request env questions [] [] = processErrorEnvelope e := by
  have hext : extract_url_from_text questions = [] := extract_url_empty questions hq1 hq2
  have hws : execute_tool env.tools webScraperLitS.toList [(urlKeyS.toList, Json.str [])] =
      Except.error urlRequiredMsgS.toList := by
    simp [execute_tool, execute_web_scraper, lookupStr, pyFalsy]
  refine ⟨hext, hws, ?_⟩
  have hdst : analyze_data_source questions [] [] = urlInTextLitS.data := by
    have hw' : containsSub wwwLitS.data (lowerStr questions) = true := hwww
    simp [analyze_data_source, pyStrip, hw']
  suffices h : ∃ e, pipelineCore env questions [] [] = Except.error e by
    obtain ⟨e, he⟩ := h
    exact ⟨e, by simp [process_request, he]⟩
  cases hb : get_task_breakdown env 0 with
  | error e => exact ⟨e, by simp [pipelineCore, hb]⟩
  | ok tp =>
    have hsd : ∃ e2, source_data env urlInTextLitS.toList [] [] tp = Except.error e2 := by
      cases tp with
      | obj fs =>
        have hpd : pyDictGet (Json.obj fs) planKeyS.toList (Json.str []) =
            Except.ok ((lookupStr planKeyS.toList fs).getD (Json.str [])) := rfl
        cases hv : (lookupStr planKeyS.toList fs).getD (Json.str []) with
        | str s =>
          rw [hv] at hpd
          obtain ⟨hs1, hs2⟩ := hplan (Json.obj fs) s hb hpd
          have hexts : extract_url_from_text s = [] := extract_url_empty s hs1 hs2
          refine ⟨urlRequiredMsgS.toList, ?_⟩
          simp only [source_data, or_true, and_self, if_true]
          simp only [hpd, hexts, hws]
        | null =>
          rw [hv] at hpd
          refine ⟨findallTypeErrS.toList, ?_⟩
          simp only [source_data, or_true, and_self, if_true]
          simp only [hpd]
        | bool b =>
          rw [hv] at hpd
          refine ⟨findallTypeErrS.toList, ?_⟩
          simp only [source_data, or_true, and_self, if_true]
          simp only [hpd]
        | num n =>
          rw [hv] at hpd
          refine ⟨findallTypeErrS.toList, ?_⟩
          simp only [source_data, or_true, and_self, if_true]
          simp only [hpd]
        | arr xs =>
          rw [hv] at hpd
          refine ⟨findallTypeErrS.toList, ?_⟩
          simp only [source_data, or_true, and_self, if_true]
          simp only [hpd]
        | obj fs2 =>
          rw [hv] at hpd
          refine ⟨findallTypeErrS.toList, ?_⟩
          simp only [source_data, or_true, and_self, if_true]
          simp only [hpd]
      | null =>
        refine ⟨attrErrMsgS.toList, ?_⟩
        simp only [source_data, or_true, and_self, if_true, pyDictGet]
      | bool b =>
        refine ⟨attrErrMsgS.toList, ?_⟩
        simp only [source_data, or_true, and_self, if_true, pyDictGet]
      | num n =>
        refine ⟨attrErrMsgS.toList, ?_⟩
        simp only [source_data, or_true, and_self, if_true, pyDictGet]
      | str s =>
        refine ⟨attrErrMsgS.toList, ?_⟩
        simp only [source_data, or_true, and_self, if_true, pyDictGet]
      | arr xs =>
        refine ⟨attrErrMsgS.toList, ?_⟩
        simp only [source_data, or_true, and_self, if_true, pyDictGet]
    obtain ⟨e2, he2⟩ := hsd
    have he2' : source_data env urlInTextLitS.data [] [] tp = Except.error e2 := he2
    refine ⟨e2, ?_⟩
    simp [pipelineCore, hdst, hext, hb, he2']

def planW9S : String := "make a plan"
def qW9S : String := "see www.example.com please"

def envW9 : OrchEnv :=
  ⟨fun _ => Except.ok planW9S.toList, fun _ => none, fun _ => [], fun c => Except.ok c,
   fun _ => Except.ok ⟨some true, none⟩, fun _ => Except.ok ⟨true, [], []⟩,
   ⟨fun _ => Except.ok Json.null, fun _ _ => Except.ok Json.null,
    fun _ _ => Except.ok Json.null⟩, 3⟩

theorem C9_url_extraction_witness :
    containsSub wwwLitS.toList (lowerStr qW9S.toList) = true ∧
    containsSub httpSchemeLitS.toList qW9S.toList = false ∧
    extract_url_from_text qW9S.toList = [] ∧
    ∃ e, process_request envW9 qW9S.toList [] [] = processErrorEnvelope e := by
  have h := C9_url_extraction_amended envW9 qW9S.toList (by decide) (by decide) (by decide)
    (by
      intro j s h1 h2
      have hc : get_task_breakdown envW9 0 = Except.ok (Json.obj
          [(planKeyS.toList, Json.str planW9S.toList), (stepsKeyS.toList, Json.arr [])]) := rfl
      rw [hc] at h1
      injection h1 with hj
      have hc2 : pyDictGet j planKeyS.toList (Json.str []) =
          Except.ok (Json.str planW9S.toList) := by
        rw [← hj]
        rfl
      rw [hc2] at h2
      injection h2 with h2a
      injection h2a with h2b
      rw [← h2b]
      exact ⟨by decide, by decide⟩)
  exact ⟨by decide, by decide, h.1, h.2.2⟩

def qC9S : String := "check www.example.com"
def doneS : String := "done"
def planC9S : String := "a plain plan"

def envC9 : OrchEnv :=
  ⟨fun _ => Except.ok planC9S.toList, fun _ => none, fun _ => [], fun c => Except.ok c,
   fun _ => Except.ok ⟨some true, none⟩, fun _ => Except.ok ⟨true, doneS.toList, []⟩,
   ⟨fun _ => Except.ok (Json.obj []), fun _ _ => Except.ok Json.null,
    fun _ _ => Except.ok Json.null⟩, 3⟩

/-- C9 counterexample: a request with a whitespace-only `data_url` is
classified `url_in_text` and satisfies the claim's hypotheses (the
question contains `"www."` and neither the question nor the task plan's
`plan` text contains an `https?://` substring), yet the `web_scraper`
dispatch receives the original whitespace `data_url`, does not raise,
and the request finishes without the top-level error envelope. -/
theorem C9_url_extraction_counterexample :
    containsSub wwwLitS.toList (lowerStr qC9S.toList) = true ∧
    containsSub httpSchemeLitS.toList qC9S.toList = false ∧
    containsSub httpsSchemeLitS.toList qC9S.toList = false ∧
    containsSub httpSchemeLitS.toList planC9S.toList = false ∧
    containsSub httpsSchemeLitS.toList planC9S.toList = false ∧
    get_task_breakdown envC9 0 = Except.ok (Json.obj
      [(planKeyS.toList, Json.str planC9S.toList), (stepsKeyS.toList, Json.arr [])]) ∧
    spaceS.toList ≠ [] ∧
    analyze_data_source qC9S.toList [] spaceS.toList = urlInTextLitS.toList ∧
    extract_url_from_text qC9S.toList = [] ∧
    process_request envC9 qC9S.toList [] spaceS.toList =
      successEnvelope qC9S.toList [Json.str doneS.toList] ∧
    statusOf (process_request envC9 qC9S.toList [] spaceS.toList) = successLitS.toList ∧
    statusOf (processErrorEnvelope spaceS.toList) = errorLitS.toList ∧
    successLitS.toList ≠ errorLitS.toList :=
  ⟨by decide, by decide, by decide, by decide, by decide, rfl, by decide, by decide,
   by decide, rfl, rfl, rfl, by decide⟩
